import Mathlib

/-!
# Verification of the yoyow-core transaction-evaluation framework

Shallow embedding of `libraries/chain/include/graphene/chain/evaluator.hpp`:
the generic two-phase evaluate/apply lifecycle, the fee-ledger context, fee
preparation and settlement, the relative-object resolver and the evaluator
dispatch table.

The template bodies `evaluator<D>::evaluate`, `evaluator<D>::apply` and
`op_evaluator_impl<T>::evaluate` are embedded directly from the header.
The out-of-line member functions (`prepare_fee`, `convert_fee`, `pay_fee`,
`process_fee_options`, `get_relative_id`, `start_evaluate`,
`calculate_fee_pair_for_operation`) are declared in the header but their
bodies live outside the excerpt; those are modelled from the spec, as noted
on each definition.

Machine integers (`share_type`, i.e. `safe<int64_t>`) are modelled as `Int`;
the claims under study are about accounting identities and control flow, not
about 64-bit overflow.
-/

deriving instance DecidableEq for Except

namespace GrapheneChain

/-- An `asset` value: an amount denominated in an asset.  Asset id `0` is the
ledger's native (CORE) asset. -/
structure Asset where
  amount : Int
  asset_id : Nat
deriving DecidableEq, Repr

/-- C++ `asset` negation: negates the amount, keeps the asset id. -/
def Asset.neg (a : Asset) : Asset := { a with amount := -a.amount }

/-- Per-account data: balances per asset id (association list, absent means 0)
together with the account-statistics counters (prepaid, csaf, pending fees)
that the fee machinery reads and writes. -/
structure AccountData where
  balances : List (Nat × Int)
  prepaid : Int
  csaf : Int
  pending_fees : Int
deriving DecidableEq, Repr

/-- Balance of an account in a given asset (0 when no entry exists). -/
def balanceOf (a : AccountData) (aid : Nat) : Int :=
  match a.balances.find? (fun p => p.1 == aid) with
  | some p => p.2
  | none => 0

/-- Adjust the entry for asset `aid` in a balance list by `delta`
(appending a fresh entry when absent). -/
def adjustBal (bs : List (Nat × Int)) (aid : Nat) (delta : Int) : List (Nat × Int) :=
  if bs.any (fun p => p.1 == aid) then
    bs.map (fun p => if p.1 == aid then (p.1, p.2 + delta) else p)
  else
    bs ++ [(aid, delta)]

/-- Per-asset dynamic data: the fee exchange pool (native side and asset side)
and the pool's quoted rate, `rate_core` native units per `rate_asset` asset
units. -/
structure AssetData where
  pool_core : Int
  pool_asset : Int
  rate_core : Int
  rate_asset : Int
deriving DecidableEq, Repr

/-- Native-unit equivalent of `amt` units of the asset at the pool's quoted
rate. -/
def quoteToCore (ad : AssetData) (amt : Int) : Int :=
  amt * ad.rate_core / ad.rate_asset

/-- The ledger (database) state the evaluator reads and mutates: accounts and
assets keyed by id. -/
structure Ledger where
  accounts : List (Nat × AccountData)
  assets : List (Nat × AssetData)
deriving DecidableEq, Repr

/-- Look up an account object by uid. -/
def lookupAcct (l : Ledger) (uid : Nat) : Option AccountData :=
  (l.accounts.find? (fun p => p.1 == uid)).map (fun p => p.2)

/-- Look up an asset object (with its dynamic data) by asset id. -/
def lookupAsset (l : Ledger) (aid : Nat) : Option AssetData :=
  (l.assets.find? (fun p => p.1 == aid)).map (fun p => p.2)

/-- Apply `f` to the account with the given uid. -/
def updateAcct (l : Ledger) (uid : Nat) (f : AccountData → AccountData) : Ledger :=
  { l with accounts := l.accounts.map (fun p => if p.1 == uid then (p.1, f p.2) else p) }

/-- Apply `f` to the asset with the given id. -/
def updateAsset (l : Ledger) (aid : Nat) (f : AssetData → AssetData) : Ledger :=
  { l with assets := l.assets.map (fun p => if p.1 == aid then (p.1, f p.2) else p) }

/-- The fee-ledger-context fields of `generic_evaluator`
(header lines 133-138): how the fee was sourced and how much was paid. -/
structure FeeContext where
  fee_from_account : Asset
  core_fee_paid : Int
  total_fee_paid : Int
  from_balance : Int
  from_prepaid : Int
  from_csaf : Int
deriving DecidableEq, Repr

/-- A freshly constructed evaluator's fee context (value-initialised
`share_type`/`asset` members). -/
def initFeeContext : FeeContext :=
  { fee_from_account := { amount := 0, asset_id := 0 }
    core_fee_paid := 0, total_fee_paid := 0
    from_balance := 0, from_prepaid := 0, from_csaf := 0 }

/-- The state threaded through one evaluation: the ledger, the
`transaction_evaluation_state`'s skip flag, and the evaluator's own
fee-ledger context. -/
structure EvalCtx where
  ledger : Ledger
  skip_fee_schedule_check : Bool
  fee : FeeContext
deriving DecidableEq, Repr

/-- The error taxonomy of the evaluation framework (spec section 7):
insufficient fee, object-resolution failure, insufficient funds, and
domain-specific failures raised by `do_evaluate`. -/
inductive EvalError where
  | insufficient_fee
  | object_resolution
  | insufficient_funds
  | domain (code : Nat)
deriving DecidableEq, Repr

/-- An operation, as the framework sees it: a kind tag (for the fee
schedule), a fee payer uid, and the declared fee. -/
structure Operation where
  kind : Nat
  fee_payer_uid : Nat
  fee : Asset
deriving DecidableEq, Repr

/-- Modelled from the spec: `calculate_fee_pair_for_operation` (body outside
the excerpt) looks up the `(total_required, min_real_required)` pair for the
operation's kind in the active fee schedule; the schedule itself is out of
scope and passed as a parameter. -/
def calculate_fee_pair_for_operation (sched : Nat → Int × Int) (op : Operation) : Int × Int :=
  sched op.kind

/-- Modelled from the spec: `calculate_fee_for_operation` returns only the
total of the fee pair. -/
def calculate_fee_for_operation (sched : Nat → Int × Int) (op : Operation) : Int :=
  (calculate_fee_pair_for_operation sched op).1

/-- Step 3 of `prepare_fee`: the native-unit value of the declared fee — the
declared amount itself when the fee asset is native, otherwise the exchange
pool's quote. -/
def core_equivalent (ad : AssetData) (fee : Asset) : Int :=
  if fee.asset_id = 0 then fee.amount else quoteToCore ad fee.amount

/-- Modelled from the spec: `prepare_fee` (body outside the excerpt).
Resolves the payer's account and the fee's asset (object-resolution failure
when absent); sets `core_fee_paid` to the declared amount when the fee asset
is native, otherwise to the native equivalent at the exchange pool's quoted
rate; sources funds in the fixed priority order csaf credit, then prepaid
credit, then spendable balance, each up to its availability, accumulating
into `from_csaf`, `from_prepaid`, `from_balance` until the intent
`core_fee_paid` is covered; fails with insufficient funds when the combined
sources cannot cover it; records the gross declared fee in
`fee_from_account`.  No ledger field is touched: only the evaluator's own
fee context is written. -/
def prepare_fee (uid : Nat) (fee : Asset) (st : EvalCtx) : Except EvalError EvalCtx :=
  match lookupAcct st.ledger uid with
  | none => .error .object_resolution
  | some acct =>
    match lookupAsset st.ledger fee.asset_id with
    | none => .error .object_resolution
    | some ad =>
      let core := core_equivalent ad fee
      let fcsaf := min acct.csaf core
      let fprepaid := min acct.prepaid (core - fcsaf)
      let fbal := min (balanceOf acct 0) (core - fcsaf - fprepaid)
      let total := fcsaf + fprepaid + fbal
      if total < core then .error .insufficient_funds
      else .ok { st with fee :=
        { fee_from_account := fee, core_fee_paid := core, total_fee_paid := total
          from_balance := fbal, from_prepaid := fprepaid, from_csaf := fcsaf } }

/-- The two fee-schedule assertions of `evaluator<D>::evaluate`
(header lines 179-189): first the total-fee check, then the real-fee check;
returns the error the failing `GRAPHENE_ASSERT` would raise, `none` when
both pass. -/
def fee_checks (fc : FeeContext) (pair : Int × Int) : Option EvalError :=
  if fc.total_fee_paid < pair.1 then some .insufficient_fee
  else if fc.from_balance + fc.from_prepaid < pair.2 then some .insufficient_fee
  else none

/-- Delegation to the operation-kind-specific `do_evaluate`, wrapping its
domain-specific failures.  Per the framework contract the evaluate phase
does not mutate the ledger, so `do_evaluate` is read-only. -/
def runDoEvaluate (doEval : Operation → Ledger → Except Nat Int) (op : Operation)
    (st : EvalCtx) : Except EvalError (EvalCtx × Int) :=
  match doEval op st.ledger with
  | .error n => .error (.domain n)
  | .ok r => .ok (st, r)

/-- `evaluator<DerivedEvaluator>::evaluate` (header lines 170-193):
`prepare_fee(op.fee_payer_uid(), op.fee)`; unless
`trx_state->skip_fee_schedule_check`, compute the required fee pair and run
the two `GRAPHENE_ASSERT` fee checks; then delegate to `do_evaluate`. -/
def evaluate (sched : Nat → Int × Int) (doEval : Operation → Ledger → Except Nat Int)
    (op : Operation) (st : EvalCtx) : Except EvalError (EvalCtx × Int) :=
  match prepare_fee op.fee_payer_uid op.fee st with
  | .error e => .error e
  | .ok st1 =>
    if st1.skip_fee_schedule_check then runDoEvaluate doEval op st1
    else
      match fee_checks st1.fee (calculate_fee_pair_for_operation sched op) with
      | some e => .error e
      | none => runDoEvaluate doEval op st1

/-- Modelled from the spec and the header comment (lines 88-99):
`convert_fee` (body outside the excerpt) reads `core_fee_paid` for how much
CORE is deducted from the exchange pool and `fee_from_account` for how much
of the asset is added to the pool; no conversion happens for a CORE-denominated
fee. -/
def convert_fee (st : EvalCtx) : EvalCtx :=
  if st.fee.fee_from_account.asset_id = 0 then st
  else
    let l := updateAsset st.ledger st.fee.fee_from_account.asset_id (fun ad =>
      { ad with pool_core := ad.pool_core - st.fee.core_fee_paid,
                pool_asset := ad.pool_asset + st.fee.fee_from_account.amount })
    { st with ledger := l }

/-- Modelled from the spec and the header comment (lines 52-65): the default
`pay_fee` (body outside the excerpt) increments the fee-paying account's
pending-fee counter on its statistics object by `core_fee_paid`. -/
def pay_fee (uid : Nat) (st : EvalCtx) : EvalCtx :=
  let l := updateAcct st.ledger uid (fun a =>
    { a with pending_fees := a.pending_fees + st.fee.core_fee_paid })
  { st with ledger := l }

/-- `db_adjust_balance` (declared in the header, lines 128-129): adjust the
payer's balance of the delta's asset by the delta's amount. -/
def db_adjust_balance (uid : Nat) (delta : Asset) (l : Ledger) : Ledger :=
  updateAcct l uid (fun a => { a with balances := adjustBal a.balances delta.asset_id delta.amount })

/-- Modelled from the spec: `process_fee_options` (body outside the excerpt)
finalises fee-option bookkeeping — decrements the csaf and prepaid counters
that were logically consumed by `from_csaf` and `from_prepaid`. -/
def process_fee_options (uid : Nat) (st : EvalCtx) : EvalCtx :=
  let l := updateAcct st.ledger uid (fun a =>
    { a with csaf := a.csaf - st.fee.from_csaf,
             prepaid := a.prepaid - st.fee.from_prepaid })
  { st with ledger := l }

/-- `evaluator<DerivedEvaluator>::apply` (header lines 195-211):
`convert_fee()`; `pay_fee()`; `do_apply(op)`; if `fee_from_account.amount > 0`
then `db_adjust_balance(op.fee_payer_uid(), -fee_from_account)`;
`process_fee_options()`; return `do_apply`'s result. -/
def apply (doApply : Operation → Ledger → Ledger × Int) (op : Operation)
    (st : EvalCtx) : EvalCtx × Int :=
  let s1 := convert_fee st
  let s2 := pay_fee op.fee_payer_uid s1
  let p := doApply op s2.ledger
  let s3 : EvalCtx := { s2 with ledger := p.1 }
  let s4 := if 0 < s3.fee.fee_from_account.amount then
      { s3 with ledger := db_adjust_balance op.fee_payer_uid (Asset.neg s3.fee.fee_from_account) s3.ledger }
    else s3
  let s5 := process_fee_options op.fee_payer_uid s4
  (s5, p.2)

/-- Modelled from the spec: `generic_evaluator::start_evaluate` (declared at
header line 42, body outside the excerpt) stores the evaluation context,
invokes `evaluate(op)`, and, only when that succeeded and the apply flag is
set, invokes `apply(op)`; a failure during evaluate propagates and `apply`
is never reached. -/
def start_evaluate (sched : Nat → Int × Int) (doEval : Operation → Ledger → Except Nat Int)
    (doApply : Operation → Ledger → Ledger × Int) (op : Operation) (applyFlag : Bool)
    (st : EvalCtx) : Except EvalError (EvalCtx × Int) :=
  match evaluate sched doEval op st with
  | .error e => .error e
  | .ok (st1, r) => if applyFlag then .ok (apply doApply op st1) else .ok (st1, r)

/-- The default value of the `apply` parameter of
`op_evaluator_impl<T>::evaluate` (header line 157: `bool apply = true`). -/
def op_evaluator_apply_default : Bool := true

/-- `op_evaluator_impl<T>::evaluate` (header lines 153-162): constructs a
fresh evaluator (fresh fee context) and calls `start_evaluate` on the given
evaluation state and operation with the given apply flag. -/
def op_evaluator_evaluate (sched : Nat → Int × Int) (doEval : Operation → Ledger → Except Nat Int)
    (doApply : Operation → Ledger → Ledger × Int) (ledger : Ledger) (skip : Bool)
    (op : Operation) (applyFlag : Bool) : Except EvalError (EvalCtx × Int) :=
  start_evaluate sched doEval doApply op applyFlag
    { ledger := ledger, skip_fee_schedule_check := skip, fee := initFeeContext }

/-- A dispatch-table call that omits the trailing apply argument: C++
substitutes the declared default (`true`). -/
def op_evaluator_evaluate_defaulted (sched : Nat → Int × Int)
    (doEval : Operation → Ledger → Except Nat Int)
    (doApply : Operation → Ledger → Ledger × Int) (ledger : Ledger) (skip : Bool)
    (op : Operation) : Except EvalError (EvalCtx × Int) :=
  op_evaluator_evaluate sched doEval doApply ledger skip op op_evaluator_apply_default

/-- An object reference that may be relative to the current transaction's
allocation cursor. -/
structure ObjectId where
  relative : Bool
  index : Nat
deriving DecidableEq, Repr

/-- Modelled from the spec: `generic_evaluator::get_relative_id` (declared at
header line 102, body outside the excerpt).  `created` lists, in order, the
concrete identifiers of the objects created so far in this transaction.  A
non-relative reference is returned unchanged; a relative one resolves
against the transaction's object-creation counter to the concrete identifier
of the earlier-created object, failing when it points outside the range of
objects created so far. -/
def get_relative_id (created : List Nat) (rid : ObjectId) : Except EvalError ObjectId :=
  if rid.relative then
    match created[rid.index]? with
    | some cid => .ok { relative := false, index := cid }
    | none => .error .object_resolution
  else .ok rid

/-! ## Concrete example data, used by the witness theorems -/

/-- Example payer: core balance 100, prepaid 5, csaf 3. -/
def exAcct : AccountData :=
  { balances := [(0, 100)], prepaid := 5, csaf := 3, pending_fees := 0 }

/-- Example core-asset record (rate 1:1, empty pool). -/
def exCore : AssetData :=
  { pool_core := 0, pool_asset := 0, rate_core := 1, rate_asset := 1 }

/-- Example non-native asset: pool of 50 core against 80 asset units,
quoting 1 core per 2 asset units. -/
def exUsd : AssetData :=
  { pool_core := 50, pool_asset := 80, rate_core := 1, rate_asset := 2 }

/-- Example ledger: one payer (uid 1) plus the core asset and asset 7. -/
def exLedger : Ledger :=
  { accounts := [(1, exAcct)], assets := [(0, exCore), (7, exUsd)] }

/-- Example declared fee: 10 core. -/
def exFee : Asset := { amount := 10, asset_id := 0 }

/-- Example evaluation context over `exLedger` with the skip flag clear. -/
def exSt : EvalCtx :=
  { ledger := exLedger, skip_fee_schedule_check := false, fee := initFeeContext }

/-- The context `prepare_fee 1 exFee exSt` produces: 3 from csaf, 5 from
prepaid, 2 from balance. -/
def exSt1 : EvalCtx :=
  { exSt with fee :=
    { fee_from_account := exFee, core_fee_paid := 10, total_fee_paid := 10
      from_balance := 2, from_prepaid := 5, from_csaf := 3 } }

/-- Example fee schedule: operation kind 0 requires (total 10, real 5);
every other kind requires (1000, 1000). -/
def exSched : Nat → Int × Int := fun k => if k = 0 then (10, 5) else (1000, 1000)

/-- Example `do_evaluate`: always passes. -/
def exDoEval : Operation → Ledger → Except Nat Int := fun _ _ => .ok 0

/-- Example `do_apply`: mutates nothing, returns 0. -/
def exDoApply : Operation → Ledger → Ledger × Int := fun _ l => (l, 0)

/-- Example operation: kind 0, payer 1, fee 10 core. -/
def exOp : Operation := { kind := 0, fee_payer_uid := 1, fee := exFee }

/-- Example operation of kind 1, whose required fee (1000) exceeds what the
payer provides: its evaluation fails the fee check. -/
def exOpBig : Operation := { kind := 1, fee_payer_uid := 1, fee := exFee }

/-- The ledger state after `apply exDoApply exOp exSt1`: pending fees credited
with the 10 core paid, balance reduced by 10, csaf and prepaid counters
cleared by `process_fee_options`. -/
def exApplied : EvalCtx :=
  { ledger :=
      { accounts := [(1, { balances := [(0, 90)], prepaid := 0, csaf := 0, pending_fees := 10 })]
        assets := [(0, exCore), (7, exUsd)] }
    skip_fee_schedule_check := false
    fee := exSt1.fee }

/-- Example operation paying its fee in the non-native asset 7 (8 units,
worth 4 core at the pool's 1:2 quote). -/
def exOpUsd : Operation := { kind := 0, fee_payer_uid := 1, fee := { amount := 8, asset_id := 7 } }

/-- Evaluation context for the non-native-fee example, with the skip flag
set so the fee-schedule checks do not interfere. -/
def exStUsd : EvalCtx :=
  { ledger := exLedger, skip_fee_schedule_check := true, fee := initFeeContext }

/-- The context `evaluate exSched exDoEval exOpUsd exStUsd` produces:
4 core equivalent, sourced 3 from csaf and 1 from prepaid. -/
def exStUsd1 : EvalCtx :=
  { exStUsd with fee :=
    { fee_from_account := { amount := 8, asset_id := 7 }, core_fee_paid := 4
      total_fee_paid := 4, from_balance := 0, from_prepaid := 1, from_csaf := 3 } }

/-! ## Helper lemmas -/

/-- Updating an association list at a key commutes with finding that key. -/
theorem find_map_update (k : Nat) (f : α → α) (xs : List (Nat × α)) :
    List.find? (fun p => p.1 == k) (xs.map (fun p => if p.1 == k then (p.1, f p.2) else p))
      = (List.find? (fun p => p.1 == k) xs).map (fun p => (p.1, f p.2)) := by
  induction xs with
  | nil => rfl
  | cons x xs ih =>
    simp only [List.map_cons, List.find?_cons]
    cases h : x.1 == k with
    | true => simp [h]
    | false => simpa [h] using ih

/-- Account lookup after an account update at the same uid. -/
theorem lookupAcct_updateAcct (l : Ledger) (uid : Nat) (f : AccountData → AccountData) :
    lookupAcct (updateAcct l uid f) uid = (lookupAcct l uid).map f := by
  simp only [lookupAcct, updateAcct, find_map_update]
  cases List.find? (fun p => p.1 == uid) l.accounts <;> rfl

/-- Asset lookup after an asset update at the same id. -/
theorem lookupAsset_updateAsset (l : Ledger) (aid : Nat) (f : AssetData → AssetData) :
    lookupAsset (updateAsset l aid f) aid = (lookupAsset l aid).map f := by
  simp only [lookupAsset, updateAsset, find_map_update]
  cases List.find? (fun p => p.1 == aid) l.assets <;> rfl

/-- Updating an account leaves every asset lookup unchanged. -/
theorem lookupAsset_updateAcct (l : Ledger) (uid : Nat) (f : AccountData → AccountData)
    (aid : Nat) : lookupAsset (updateAcct l uid f) aid = lookupAsset l aid := rfl

/-- Updating an asset leaves every account lookup unchanged. -/
theorem lookupAcct_updateAsset (l : Ledger) (aid : Nat) (f : AssetData → AssetData)
    (uid : Nat) : lookupAcct (updateAsset l aid f) uid = lookupAcct l uid := rfl

/-- A successful `prepare_fee` leaves the ledger and the skip flag untouched:
it writes only the evaluator's own fee context. -/
theorem prepare_fee_frame {uid : Nat} {fee : Asset} {st st1 : EvalCtx}
    (h : prepare_fee uid fee st = .ok st1) :
    st1.ledger = st.ledger ∧ st1.skip_fee_schedule_check = st.skip_fee_schedule_check := by
  cases hA : lookupAcct st.ledger uid with
  | none => simp only [prepare_fee, hA] at h; exact Except.noConfusion h
  | some acct =>
    cases hB : lookupAsset st.ledger fee.asset_id with
    | none => simp only [prepare_fee, hA, hB] at h; exact Except.noConfusion h
    | some ad =>
      simp only [prepare_fee, hA, hB] at h
      split at h
      · exact Except.noConfusion h
      · simp only [Except.ok.injEq] at h
        subst h
        exact ⟨rfl, rfl⟩

/-- Shape of a successful `prepare_fee`: the resolved objects exist, the
funding formulas hold, the sources cover the intent, and the new state is
the old one with only the fee context replaced. -/
theorem prepare_fee_ok_shape {uid : Nat} {fee : Asset} {st st1 : EvalCtx}
    (h : prepare_fee uid fee st = .ok st1) :
    ∃ acct ad,
      lookupAcct st.ledger uid = some acct ∧
      lookupAsset st.ledger fee.asset_id = some ad ∧
      st1.fee.from_csaf = min acct.csaf (core_equivalent ad fee) ∧
      st1.fee.from_prepaid = min acct.prepaid (core_equivalent ad fee - st1.fee.from_csaf) ∧
      st1.fee.from_balance = min (balanceOf acct 0)
        (core_equivalent ad fee - st1.fee.from_csaf - st1.fee.from_prepaid) ∧
      st1.fee.total_fee_paid = st1.fee.from_csaf + st1.fee.from_prepaid + st1.fee.from_balance ∧
      st1.fee.core_fee_paid = core_equivalent ad fee ∧
      st1.fee.fee_from_account = fee ∧
      ¬ st1.fee.total_fee_paid < core_equivalent ad fee ∧
      st1 = { st with fee := st1.fee } := by
  cases hA : lookupAcct st.ledger uid with
  | none => simp only [prepare_fee, hA] at h; exact Except.noConfusion h
  | some acct =>
    cases hB : lookupAsset st.ledger fee.asset_id with
    | none => simp only [prepare_fee, hA, hB] at h; exact Except.noConfusion h
    | some ad =>
      simp only [prepare_fee, hA, hB] at h
      split at h
      · exact Except.noConfusion h
      · simp only [Except.ok.injEq] at h
        subst h
        rename_i hlt
        exact ⟨acct, ad, rfl, rfl, rfl, rfl, rfl, rfl, rfl, rfl, hlt, rfl⟩

/-- A successful `runDoEvaluate` returns the state it was given. -/
theorem runDoEvaluate_ok {doEval : Operation → Ledger → Except Nat Int} {op : Operation}
    {st st1 : EvalCtx} {r : Int} (h : runDoEvaluate doEval op st = .ok (st1, r)) :
    st1 = st := by
  unfold runDoEvaluate at h
  cases hd : doEval op st.ledger with
  | error n => rw [hd] at h; exact Except.noConfusion h
  | ok v =>
    rw [hd] at h
    simp only [Except.ok.injEq, Prod.mk.injEq] at h
    exact h.1.symm

/-- `runDoEvaluate` surfaces only domain errors, never the fee-check error. -/
theorem runDoEvaluate_ne_insufficient (doEval : Operation → Ledger → Except Nat Int)
    (op : Operation) (st : EvalCtx) :
    runDoEvaluate doEval op st ≠ .error .insufficient_fee := by
  unfold runDoEvaluate
  cases doEval op st.ledger with
  | error n => simp
  | ok v => simp

/-- `prepare_fee` fails only with an object-resolution or insufficient-funds
error, never with the fee-schedule error. -/
theorem prepare_fee_error_kinds {uid : Nat} {fee : Asset} {st : EvalCtx} {e : EvalError}
    (h : prepare_fee uid fee st = .error e) :
    e = .object_resolution ∨ e = .insufficient_funds := by
  cases hA : lookupAcct st.ledger uid with
  | none =>
    simp only [prepare_fee, hA, Except.error.injEq] at h
    exact Or.inl h.symm
  | some acct =>
    cases hB : lookupAsset st.ledger fee.asset_id with
    | none =>
      simp only [prepare_fee, hA, hB, Except.error.injEq] at h
      exact Or.inl h.symm
    | some ad =>
      simp only [prepare_fee, hA, hB] at h
      split at h
      · simp only [Except.error.injEq] at h
        exact Or.inr h.symm
      · exact Except.noConfusion h

/-- A successful `evaluate` decomposes as a successful `prepare_fee` followed
by a successful `do_evaluate` on the prepared state. -/
theorem evaluate_ok_shape {sched : Nat → Int × Int} {doEval : Operation → Ledger → Except Nat Int}
    {op : Operation} {st st1 : EvalCtx} {r : Int}
    (h : evaluate sched doEval op st = .ok (st1, r)) :
    prepare_fee op.fee_payer_uid op.fee st = .ok st1 ∧ doEval op st1.ledger = .ok r := by
  unfold evaluate at h
  cases hp : prepare_fee op.fee_payer_uid op.fee st with
  | error e => rw [hp] at h; exact Except.noConfusion h
  | ok st' =>
    rw [hp] at h
    have hrun : runDoEvaluate doEval op st' = .ok (st1, r) := by
      cases hsk : st'.skip_fee_schedule_check with
      | true => simpa only [hsk, if_true] using h
      | false =>
        simp only [hsk, Bool.false_eq_true, if_false] at h
        cases hfc : fee_checks st'.fee (calculate_fee_pair_for_operation sched op) with
        | some e => rw [hfc] at h; exact Except.noConfusion h
        | none => rw [hfc] at h; exact h
    obtain rfl := runDoEvaluate_ok hrun
    refine ⟨rfl, ?_⟩
    unfold runDoEvaluate at hrun
    cases hd : doEval op st1.ledger with
    | error n => rw [hd] at hrun; exact Except.noConfusion hrun
    | ok v =>
      rw [hd] at hrun
      simp only [Except.ok.injEq, Prod.mk.injEq] at hrun
      rw [hrun.2]

/-! ## C3 — fee-ledger-context invariant after `prepare_fee` -/

/-- C3: after every successful `prepare_fee`, the fee-ledger-context fields
satisfy `from_balance + from_prepaid + from_csaf = total_fee_paid`, and each
of the three addends is nonnegative, for every combination of the payer's
available csaf, prepaid and balance funds (all counters and the declared
amount and pool rate being nonnegative). -/
theorem prepare_fee_sources_invariant (uid : Nat) (fee : Asset) (st st1 : EvalCtx)
    (acct : AccountData)
    (hA : lookupAcct st.ledger uid = some acct)
    (hcsaf : 0 ≤ acct.csaf) (hpre : 0 ≤ acct.prepaid) (hbal : 0 ≤ balanceOf acct 0)
    (hamt : 0 ≤ fee.amount)
    (hrate : ∀ ad, lookupAsset st.ledger fee.asset_id = some ad →
        0 ≤ ad.rate_core ∧ 0 ≤ ad.rate_asset)
    (hok : prepare_fee uid fee st = .ok st1) :
    st1.fee.from_balance + st1.fee.from_prepaid + st1.fee.from_csaf = st1.fee.total_fee_paid ∧
    0 ≤ st1.fee.from_balance ∧ 0 ≤ st1.fee.from_prepaid ∧ 0 ≤ st1.fee.from_csaf := by
  obtain ⟨acct', ad, hA', hB, hcs, hpp, hfb, htot, hcore, hffa, hnl, hst⟩ :=
    prepare_fee_ok_shape hok
  rw [hA] at hA'
  injection hA' with e1
  subst e1
  obtain ⟨hrc, hra⟩ := hrate ad hB
  have hcore0 : 0 ≤ core_equivalent ad fee := by
    unfold core_equivalent quoteToCore
    split
    · exact hamt
    · exact Int.ediv_nonneg (mul_nonneg hamt hrc) hra
  refine ⟨by omega, by omega, by omega, by omega⟩

/-- Witness for C3 at the concrete example: payer with csaf 3, prepaid 5,
balance 100 paying a 10-core fee. -/
theorem prepare_fee_sources_invariant_witness :
    exSt1.fee.from_balance + exSt1.fee.from_prepaid + exSt1.fee.from_csaf
        = exSt1.fee.total_fee_paid ∧
    0 ≤ exSt1.fee.from_balance ∧ 0 ≤ exSt1.fee.from_prepaid ∧ 0 ≤ exSt1.fee.from_csaf :=
  prepare_fee_sources_invariant 1 exFee exSt exSt1 exAcct rfl (by decide) (by decide)
    (by decide) (by decide)
    (fun ad h => by
      have h' : some exCore = some ad := h
      cases h'
      exact ⟨by decide, by decide⟩)
    (by decide)

/-! ## C6 — funding-source priority and insufficient-funds failure -/

/-- C6: `prepare_fee` consumes funding sources in the fixed order csaf, then
prepaid, then spendable balance, each up to its availability, accumulating
until `total_fee_paid` covers the native-unit intent; it fails with the
insufficient-funds error exactly when the combined available funds cannot
cover `core_fee_paid`. -/
theorem prepare_fee_funding_priority (uid : Nat) (fee : Asset) (st : EvalCtx)
    (acct : AccountData) (ad : AssetData)
    (hA : lookupAcct st.ledger uid = some acct)
    (hB : lookupAsset st.ledger fee.asset_id = some ad)
    (hcsaf : 0 ≤ acct.csaf) (hpre : 0 ≤ acct.prepaid) (hbal : 0 ≤ balanceOf acct 0)
    (hcore : 0 ≤ core_equivalent ad fee) :
    (∀ st1, prepare_fee uid fee st = .ok st1 →
        st1.fee.from_csaf = min acct.csaf (core_equivalent ad fee) ∧
        st1.fee.from_prepaid = min acct.prepaid (core_equivalent ad fee - st1.fee.from_csaf) ∧
        st1.fee.from_balance = min (balanceOf acct 0)
          (core_equivalent ad fee - st1.fee.from_csaf - st1.fee.from_prepaid) ∧
        st1.fee.total_fee_paid = st1.fee.from_csaf + st1.fee.from_prepaid + st1.fee.from_balance ∧
        st1.fee.total_fee_paid = core_equivalent ad fee) ∧
    (prepare_fee uid fee st = .error .insufficient_funds ↔
        acct.csaf + acct.prepaid + balanceOf acct 0 < core_equivalent ad fee) := by
  constructor
  · intro st1 hok
    obtain ⟨acct', ad', hA', hB', hcs, hpp, hfb, htot, hcore', hffa, hnl, hst⟩ :=
      prepare_fee_ok_shape hok
    rw [hA] at hA'
    rw [hB] at hB'
    injection hA' with e1
    injection hB' with e2
    subst e1
    subst e2
    exact ⟨hcs, hpp, hfb, htot, by omega⟩
  · simp only [prepare_fee, hA, hB]
    split
    · rename_i hlt
      constructor
      · intro _
        omega
      · intro _
        rfl
    · rename_i hge
      constructor
      · intro h
        exact Except.noConfusion h
      · intro hsum
        exfalso
        omega

/-- Witness for C6 at the concrete example account and core asset. -/
theorem prepare_fee_funding_priority_witness :
    exSt1.fee.from_csaf = min exAcct.csaf (core_equivalent exCore exFee) ∧
    exSt1.fee.total_fee_paid = core_equivalent exCore exFee ∧
    ¬ prepare_fee 1 exFee exSt = .error .insufficient_funds := by
  have h := prepare_fee_funding_priority 1 exFee exSt exAcct exCore rfl rfl
    (by decide) (by decide) (by decide) (by decide)
  refine ⟨(h.1 exSt1 (by decide)).1, (h.1 exSt1 (by decide)).2.2.2.2, ?_⟩
  intro hc
  exact absurd (h.2.mp hc) (by decide)

/-! ## C10 — the relative object resolver -/

/-- C10: `get_relative_id` returns a non-relative reference unchanged;
resolves a relative reference against the transaction's object-creation
record to the concrete identifier of the object created earlier in the same
transaction; and fails when a relative reference points outside the range of
objects created so far. -/
theorem get_relative_id_contract (created : List Nat) (rid : ObjectId) :
    (rid.relative = false → get_relative_id created rid = .ok rid) ∧
    (rid.relative = true →
      ∀ h : rid.index < created.length,
        get_relative_id created rid = .ok { relative := false, index := created.get ⟨rid.index, h⟩ }) ∧
    (rid.relative = true → created.length ≤ rid.index →
        get_relative_id created rid = .error .object_resolution) := by
  refine ⟨?_, ?_, ?_⟩
  · intro h
    simp [get_relative_id, h]
  · intro h hi
    simp only [get_relative_id, h, if_true]
    rw [List.getElem?_eq_getElem hi]
    rfl
  · intro h hi
    simp only [get_relative_id, h, if_true]
    rw [List.getElem?_eq_none hi]

/-- Witness for C10, Scenario D: a relative reference to the object created
second in the transaction resolves to its concrete identifier. -/
theorem get_relative_id_contract_witness :
    get_relative_id [100, 200, 300] { relative := true, index := 1 }
        = .ok { relative := false, index := 200 } :=
  (get_relative_id_contract [100, 200, 300] { relative := true, index := 1 }).2.1 rfl
    (by decide)

/-! ## C4 — `evaluate` mutates no ledger state -/

/-- C4: running `evaluate` without `apply` leaves all ledger state unchanged
(balances, exchange pools and statistics counters live in the ledger of the
resulting context, which is exactly the input ledger); `prepare_fee` itself
records intended amounts only in the evaluator's own fee fields. -/
theorem evaluate_no_ledger_mutation (sched : Nat → Int × Int)
    (doEval : Operation → Ledger → Except Nat Int) (op : Operation) (st : EvalCtx) :
    (∀ st1 r, evaluate sched doEval op st = .ok (st1, r) → st1.ledger = st.ledger) ∧
    (∀ st1, prepare_fee op.fee_payer_uid op.fee st = .ok st1 → st1.ledger = st.ledger) := by
  constructor
  · intro st1 r h
    exact (prepare_fee_frame (evaluate_ok_shape h).1).1
  · intro st1 h
    exact (prepare_fee_frame h).1

/-- Witness for C4 at the concrete example evaluation. -/
theorem evaluate_no_ledger_mutation_witness : exSt1.ledger = exSt.ledger :=
  (evaluate_no_ledger_mutation exSched exDoEval exOp exSt).1 exSt1 0 (by decide)

/-! ## C9 — the skip flag suppresses only the two fee-schedule checks -/

/-- C9: `evaluate` calls `prepare_fee` unconditionally — with the skip flag
set it still resolves the payer and sources funds, propagating any
`prepare_fee` failure — and the skip flag suppresses exactly the two
fee-schedule assertions: with it set, `evaluate` can never fail with the
insufficient-fee error. -/
theorem evaluate_skip_flag (sched : Nat → Int × Int)
    (doEval : Operation → Ledger → Except Nat Int) (op : Operation) (st : EvalCtx)
    (hskip : st.skip_fee_schedule_check = true) :
    evaluate sched doEval op st =
      (match prepare_fee op.fee_payer_uid op.fee st with
       | .error e => .error e
       | .ok st1 => runDoEvaluate doEval op st1) ∧
    evaluate sched doEval op st ≠ .error .insufficient_fee := by
  have heq : evaluate sched doEval op st =
      (match prepare_fee op.fee_payer_uid op.fee st with
       | .error e => .error e
       | .ok st1 => runDoEvaluate doEval op st1) := by
    unfold evaluate
    cases hp : prepare_fee op.fee_payer_uid op.fee st with
    | error e => rfl
    | ok st' =>
      have hs : st'.skip_fee_schedule_check = true := by
        rw [(prepare_fee_frame hp).2, hskip]
      simp only [hs, if_true]
  refine ⟨heq, ?_⟩
  rw [heq]
  cases hp : prepare_fee op.fee_payer_uid op.fee st with
  | error e =>
    intro hc
    simp only [Except.error.injEq] at hc
    subst hc
    rcases prepare_fee_error_kinds hp with h | h <;> exact EvalError.noConfusion h
  | ok st' => exact runDoEvaluate_ne_insufficient doEval op st'

/-- Witness for C9: with the skip flag set, an operation whose fee falls far
short of the schedule still evaluates without the insufficient-fee error. -/
theorem evaluate_skip_flag_witness :
    evaluate exSched exDoEval exOpBig { exSt with skip_fee_schedule_check := true }
        ≠ .error .insufficient_fee :=
  (evaluate_skip_flag exSched exDoEval exOpBig
    { exSt with skip_fee_schedule_check := true } rfl).2

/-! ## C1 — the fee checks fail exactly on an insufficient fee -/

/-- C1: with the skip flag clear and `prepare_fee` succeeded, `evaluate`
fails with the insufficient-fee error iff `total_fee_paid` falls short of
the required total or `from_balance + from_prepaid` falls short of the
required real-fee floor; when both inequalities are satisfied the fee checks
never fail (the outcome is `do_evaluate`'s); and the csaf contribution does
not enter the checks, so csaf alone cannot satisfy the real-fee floor. -/
theorem evaluate_fee_check_characterisation (sched : Nat → Int × Int)
    (doEval : Operation → Ledger → Except Nat Int) (op : Operation) (st st1 : EvalCtx)
    (hskip : st.skip_fee_schedule_check = false)
    (hprep : prepare_fee op.fee_payer_uid op.fee st = .ok st1) :
    (evaluate sched doEval op st = .error .insufficient_fee ↔
      (st1.fee.total_fee_paid < (calculate_fee_pair_for_operation sched op).1 ∨
       st1.fee.from_balance + st1.fee.from_prepaid
         < (calculate_fee_pair_for_operation sched op).2)) ∧
    ((calculate_fee_pair_for_operation sched op).1 ≤ st1.fee.total_fee_paid →
     (calculate_fee_pair_for_operation sched op).2
         ≤ st1.fee.from_balance + st1.fee.from_prepaid →
     evaluate sched doEval op st = runDoEvaluate doEval op st1) ∧
    (∀ c, fee_checks { st1.fee with from_csaf := c } (calculate_fee_pair_for_operation sched op)
        = fee_checks st1.fee (calculate_fee_pair_for_operation sched op)) := by
  have hs1 : st1.skip_fee_schedule_check = false := by
    rw [(prepare_fee_frame hprep).2, hskip]
  have heval : evaluate sched doEval op st =
      (match fee_checks st1.fee (calculate_fee_pair_for_operation sched op) with
       | some e => .error e
       | none => runDoEvaluate doEval op st1) := by
    unfold evaluate
    rw [hprep]
    simp only [hs1, Bool.false_eq_true, if_false]
  refine ⟨?_, ?_, fun c => rfl⟩
  · rw [heval]
    unfold fee_checks
    by_cases h1 : st1.fee.total_fee_paid < (calculate_fee_pair_for_operation sched op).1
    · simp only [if_pos h1]
      exact ⟨fun _ => Or.inl h1, fun _ => trivial⟩
    · simp only [if_neg h1]
      by_cases h2 : st1.fee.from_balance + st1.fee.from_prepaid
          < (calculate_fee_pair_for_operation sched op).2
      · simp only [if_pos h2]
        exact ⟨fun _ => Or.inr h2, fun _ => trivial⟩
      · simp only [if_neg h2]
        constructor
        · intro hc
          exact absurd hc (runDoEvaluate_ne_insufficient doEval op st1)
        · intro hc
          rcases hc with h | h
          · exact absurd h h1
          · exact absurd h h2
  · intro ht hr
    rw [heval]
    unfold fee_checks
    rw [if_neg (by omega), if_neg (by omega)]

/-- Witness for C1: at the example operation both inequalities are
satisfied, and `evaluate` indeed returns `do_evaluate`'s outcome. -/
theorem evaluate_fee_check_characterisation_witness :
    evaluate exSched exDoEval exOp exSt = runDoEvaluate exDoEval exOp exSt1 :=
  (evaluate_fee_check_characterisation exSched exDoEval exOp exSt exSt1 rfl
    (by decide)).2.1 (by decide) (by decide)

/-! ## C8 — a failed `evaluate` means `apply` is never invoked -/

/-- C8: when `evaluate` fails, `start_evaluate` returns that failure for any
apply flag, and its outcome does not depend on the `do_apply` logic at all —
`apply` is never invoked. -/
theorem start_evaluate_failure_no_apply (sched : Nat → Int × Int)
    (doEval : Operation → Ledger → Except Nat Int) (op : Operation) (applyFlag : Bool)
    (st : EvalCtx) (e : EvalError)
    (h : evaluate sched doEval op st = .error e) :
    ∀ doApply, start_evaluate sched doEval doApply op applyFlag st = .error e := by
  intro doApply
  unfold start_evaluate
  rw [h]

/-- Witness for C8: the under-paying operation's failed evaluation
propagates out of `start_evaluate` even with the apply flag set. -/
theorem start_evaluate_failure_no_apply_witness :
    start_evaluate exSched exDoEval exDoApply exOpBig true exSt
        = .error .insufficient_fee :=
  start_evaluate_failure_no_apply exSched exDoEval exOpBig true exSt .insufficient_fee
    (by decide) exDoApply

/-! ## Fee-settlement preservation lemmas -/

/-- `convert_fee` never touches the evaluator's fee context. -/
theorem convert_fee_fee (st : EvalCtx) : (convert_fee st).fee = st.fee := by
  unfold convert_fee
  split <;> rfl

/-- `convert_fee` never touches the skip flag. -/
theorem convert_fee_skip (st : EvalCtx) :
    (convert_fee st).skip_fee_schedule_check = st.skip_fee_schedule_check := by
  unfold convert_fee
  split <;> rfl

/-- `convert_fee` touches only the asset table, never an account. -/
theorem convert_fee_accounts (st : EvalCtx) (uid : Nat) :
    lookupAcct (convert_fee st).ledger uid = lookupAcct st.ledger uid := by
  unfold convert_fee
  split <;> rfl

/-- Balances are unaffected by changing the pending-fee counter. -/
theorem balanceOf_set_pending (a : AccountData) (x : Int) (aid : Nat) :
    balanceOf { a with pending_fees := x } aid = balanceOf a aid := rfl

/-- The `apply` phase, unfolded: `convert_fee`, `pay_fee`, `do_apply`, the
conditional balance deduction, `process_fee_options`, returning `do_apply`'s
result; only the ledger changes along the way, the fee context and skip flag
ride through. -/
theorem apply_unfold (doApply : Operation → Ledger → Ledger × Int) (op : Operation)
    (st : EvalCtx) :
    apply doApply op st =
      (process_fee_options op.fee_payer_uid
        { st with ledger :=
            if 0 < st.fee.fee_from_account.amount then db_adjust_balance op.fee_payer_uid (Asset.neg st.fee.fee_from_account) (doApply op (pay_fee op.fee_payer_uid (convert_fee st)).ledger).1
            else (doApply op (pay_fee op.fee_payer_uid (convert_fee st)).ledger).1 },
       (doApply op (pay_fee op.fee_payer_uid (convert_fee st)).ledger).2) := by
  simp only [apply, pay_fee, convert_fee_fee, convert_fee_skip]
  by_cases hc : 0 < st.fee.fee_from_account.amount
  · rw [if_pos hc, if_pos hc]
  · rw [if_neg hc, if_neg hc]

/-! ## C2 — the `apply` phase runs its five steps in order -/

/-- C2: `apply` executes `convert_fee`, then `pay_fee`, then `do_apply`,
then the deduction of `fee_from_account` from the payer's balance (only when
its amount is positive), then `process_fee_options`, and returns the result
produced by `do_apply`.  The ledger `do_apply` observes already carries the
`pay_fee` increment but not yet the balance deduction. -/
theorem apply_step_sequence (doApply : Operation → Ledger → Ledger × Int) (op : Operation)
    (st : EvalCtx) (acct : AccountData)
    (hacct : lookupAcct st.ledger op.fee_payer_uid = some acct) :
    (apply doApply op st).2 = (doApply op (pay_fee op.fee_payer_uid (convert_fee st)).ledger).2 ∧
    (lookupAcct (pay_fee op.fee_payer_uid (convert_fee st)).ledger op.fee_payer_uid).map
        (fun a => a.pending_fees) = some (acct.pending_fees + st.fee.core_fee_paid) ∧
    (lookupAcct (pay_fee op.fee_payer_uid (convert_fee st)).ledger op.fee_payer_uid).map
        (fun a => balanceOf a st.fee.fee_from_account.asset_id)
      = some (balanceOf acct st.fee.fee_from_account.asset_id) ∧
    (apply doApply op st).1 =
      process_fee_options op.fee_payer_uid
        { st with ledger :=
            if 0 < st.fee.fee_from_account.amount then db_adjust_balance op.fee_payer_uid (Asset.neg st.fee.fee_from_account) (doApply op (pay_fee op.fee_payer_uid (convert_fee st)).ledger).1
            else (doApply op (pay_fee op.fee_payer_uid (convert_fee st)).ledger).1 } := by
  have hacct1 : lookupAcct (convert_fee st).ledger op.fee_payer_uid = some acct := by
    rw [convert_fee_accounts]
    exact hacct
  refine ⟨rfl, ?_, ?_, ?_⟩
  · simp only [pay_fee, lookupAcct_updateAcct, hacct1, Option.map_some', convert_fee_fee]
  · simp only [pay_fee, lookupAcct_updateAcct, hacct1, Option.map_some', balanceOf_set_pending]
  · exact congrArg Prod.fst (apply_unfold doApply op st)

/-- Witness for C2: at the example post-evaluation state, the ledger seen by
`do_apply` has the payer's pending-fee counter already incremented. -/
theorem apply_step_sequence_witness :
    (lookupAcct (pay_fee exOp.fee_payer_uid (convert_fee exSt1)).ledger exOp.fee_payer_uid).map
        (fun a => a.pending_fees) = some (exAcct.pending_fees + exSt1.fee.core_fee_paid) :=
  (apply_step_sequence exDoApply exOp exSt1 exAcct (by decide)).2.1

/-- Asset lookups depend only on the asset table. -/
theorem lookupAsset_ext {l l' : Ledger} (h : l.assets = l'.assets) (aid : Nat) :
    lookupAsset l aid = lookupAsset l' aid := by
  unfold lookupAsset
  rw [h]

/-- Provided `do_apply` leaves the asset table alone, the whole `apply`
phase changes the asset table exactly as `convert_fee` does: the later steps
touch only accounts. -/
theorem apply_assets (doApply : Operation → Ledger → Ledger × Int) (op : Operation)
    (st : EvalCtx) (hassets : ∀ l, (doApply op l).1.assets = l.assets) :
    ((apply doApply op st).1.ledger).assets = ((convert_fee st).ledger).assets := by
  rw [apply_unfold]
  have h1 : ∀ s : EvalCtx, ((process_fee_options op.fee_payer_uid s).ledger).assets
      = s.ledger.assets := fun _ => rfl
  rw [h1]
  by_cases hc : 0 < st.fee.fee_from_account.amount
  · rw [if_pos hc]
    exact hassets _
  · rw [if_neg hc]
    exact hassets _

/-! ## C7 — conversion uses one rate; the pool moves once, atomically -/

/-- C7: a native-asset fee sets `core_fee_paid` to the declared amount and
leaves every exchange pool untouched across `apply`; a non-native fee sets
`core_fee_paid` to the pool's quote computed in `prepare_fee`, and
`convert_fee` executes that same conversion, so `evaluate` followed by
`apply` changes the fee asset's pool exactly as one atomic conversion of
`core_fee_paid` (core side debited) against the declared `fee_from_account`
(asset side credited) — provided the operation's own `do_apply` leaves the
asset table alone. -/
theorem fee_conversion_consistency (sched : Nat → Int × Int)
    (doEval : Operation → Ledger → Except Nat Int)
    (doApply : Operation → Ledger → Ledger × Int) (op : Operation)
    (st st1 : EvalCtx) (r : Int) (ad : AssetData)
    (hok : evaluate sched doEval op st = .ok (st1, r))
    (hassets : ∀ l, (doApply op l).1.assets = l.assets)
    (hasset : lookupAsset st.ledger op.fee.asset_id = some ad) :
    st1.fee.fee_from_account = op.fee ∧
    (op.fee.asset_id = 0 →
      st1.fee.core_fee_paid = op.fee.amount ∧
      ((apply doApply op st1).1.ledger).assets = st.ledger.assets) ∧
    (op.fee.asset_id ≠ 0 →
      st1.fee.core_fee_paid = quoteToCore ad op.fee.amount ∧
      lookupAsset ((apply doApply op st1).1.ledger) op.fee.asset_id =
        some { ad with pool_core := ad.pool_core - st1.fee.core_fee_paid,
                       pool_asset := ad.pool_asset + op.fee.amount }) := by
  have hprep := (evaluate_ok_shape hok).1
  have hframe := (prepare_fee_frame hprep).1
  obtain ⟨acct, ad', hA, hB, hcs, hpp, hfb, htot, hcore, hffa, hnl, hst⟩ :=
    prepare_fee_ok_shape hprep
  rw [hasset] at hB
  injection hB with e
  subst e
  refine ⟨hffa, ?_, ?_⟩
  · intro h0
    constructor
    · rw [hcore]
      unfold core_equivalent
      rw [if_pos h0]
    · rw [apply_assets doApply op st1 hassets]
      unfold convert_fee
      rw [hffa, if_pos h0, hframe]
  · intro hne
    constructor
    · rw [hcore]
      unfold core_equivalent
      rw [if_neg hne]
    · rw [lookupAsset_ext (apply_assets doApply op st1 hassets) op.fee.asset_id]
      unfold convert_fee
      rw [hffa, if_neg hne]
      simp only [lookupAsset_updateAsset, hframe, hasset, Option.map_some']

/-- Witness for C7: the 8-unit fee in asset 7 converts to 4 core, and after
`apply` the pool of asset 7 lost 4 core and gained the 8 asset units. -/
theorem fee_conversion_consistency_witness :
    exStUsd1.fee.core_fee_paid = quoteToCore exUsd exOpUsd.fee.amount ∧
    lookupAsset ((apply exDoApply exOpUsd exStUsd1).1.ledger) exOpUsd.fee.asset_id =
      some { exUsd with pool_core := exUsd.pool_core - exStUsd1.fee.core_fee_paid,
                        pool_asset := exUsd.pool_asset + exOpUsd.fee.amount } := by
  have h := fee_conversion_consistency exSched exDoEval exDoApply exOpUsd exStUsd exStUsd1 0
    exUsd (by decide) (fun l => rfl) (by decide)
  exact h.2.2 (by decide)

/-! ## C5 — the dispatch entry point's default apply flag -/

/-- C5 counterexample: `op_evaluator_impl<T>::evaluate` declares
`bool apply = true`, so a dispatch-table call omitting the apply argument is
NOT validate-only — at the concrete example it returns an applied state
whose ledger differs from the input ledger, and it disagrees with the
explicit validate-only call. -/
theorem op_evaluator_default_flag_counterexample :
    op_evaluator_apply_default = true ∧
    op_evaluator_evaluate_defaulted exSched exDoEval exDoApply exLedger false exOp
      = .ok (exApplied, 0) ∧
    exApplied.ledger ≠ exLedger ∧
    op_evaluator_evaluate_defaulted exSched exDoEval exDoApply exLedger false exOp
      ≠ op_evaluator_evaluate exSched exDoEval exDoApply exLedger false exOp false :=
  ⟨rfl, by decide, by decide, by decide⟩

/-- C5 amended: the dispatch entry point's apply flag defaults to `true`, so
a call omitting it validates and applies — it is the mutating form, not the
validate-only one. -/
theorem op_evaluator_default_flag_applies (sched : Nat → Int × Int)
    (doEval : Operation → Ledger → Except Nat Int)
    (doApply : Operation → Ledger → Ledger × Int) (l : Ledger) (skip : Bool)
    (op : Operation) :
    op_evaluator_apply_default = true ∧
    op_evaluator_evaluate_defaulted sched doEval doApply l skip op
      = op_evaluator_evaluate sched doEval doApply l skip op true :=
  ⟨rfl, rfl⟩

end GrapheneChain
